import Mathlib

/-!
Verification of the Dynamic Workspace Allocation system.

The repository ships the React/TypeScript frontend (`frontend/src`); the
FastAPI backend that implements the Suggestion & Booking Engine is not part
of the shipped sources, so the engine (interval overlap checker, availability
resolver, hybrid scorer, suggestion ranker, booking confirmation manager and
cancellation semantics) is modelled here from the specification, while the
frontend components (`types.ts` API layer, `AllocationRequestForm`,
`ConfirmAllocation`, `AllocationHistory`, `WorkspaceStatusChecker`,
`handleApiError`) are embedded directly from the TypeScript source.

Times are modelled as integer timestamps; half-open windows `[start, end)`.
Concurrency of confirmations is modelled as arbitrary interleavings of
atomic operations, which is exactly what the specification's
"re-check-then-write must be atomic" requirement guarantees.
-/

namespace WorkspaceAlloc

/-! ## Data model -/

/-- Allocation lifecycle status (src/frontend/src/types.ts, `AllocationStatus`). -/
inductive AllocationStatus where
  | Active
  | Pending
  | Completed
  | Cancelled
deriving DecidableEq

/-- Need level for privacy/collaboration (src/frontend/src/types.ts, `NeedLevel`). -/
inductive NeedLevel where
  | low
  | medium
  | high
deriving DecidableEq

/-- User record (src/frontend/src/types.ts, `User`). -/
structure User where
  id : Nat
  email : String
  full_name : String
  level : String
  department : String
  is_active : Bool
deriving DecidableEq

/-- Workspace record (src/frontend/src/types.ts, `Workspace`). -/
structure Workspace where
  id : Nat
  name : String
  type : String
  floor : Int
  capacity : Nat
  facilities : List String
  is_available : Bool
deriving DecidableEq

/-- Durable booking (src/frontend/src/types.ts, `Allocation`). -/
structure Allocation where
  id : Nat
  user_id : Nat
  workspace_id : Nat
  start_time : Int
  end_time : Int
  team_size : Int
  status : AllocationStatus
deriving DecidableEq

/-- Confirmation payload (src/frontend/src/types.ts, `AllocationConfirm`). -/
structure AllocationConfirm where
  user_id : Nat
  workspace_id : Nat
  start_time : Int
  end_time : Int
  team_size : Int
deriving DecidableEq

/-! ## Booking Confirmation Manager and Allocation Lifecycle -/

/-- Modelled from the spec: the Interval Overlap Checker (§4.1) of the backend
engine, which is not part of the shipped sources.  Half-open intervals:
true iff `a_start < b_end AND b_start < a_end`. -/
def overlaps (aStart aEnd bStart bEnd : Int) : Bool :=
  decide (aStart < bEnd) && decide (bStart < aEnd)

/-- A status counts toward overlap checks iff it is Pending or Active
(spec glossary: "committed allocation"). -/
def isCommitted : AllocationStatus → Bool
  | .Pending => true
  | .Active => true
  | _ => false

/-- Modelled from the spec: the confirmation-time conflict test of the Booking
Confirmation Manager (§4.6) — does allocation `a` block the window
`[s, e)` on workspace `wsId`? -/
def conflictsWith (wsId : Nat) (s e : Int) (a : Allocation) : Bool :=
  (a.workspace_id == wsId) && isCommitted a.status && overlaps a.start_time a.end_time s e

/-- Modelled from the spec: re-check over all existing allocations (§4.6). -/
def hasConflict (st : List Allocation) (wsId : Nat) (s e : Int) : Bool :=
  st.any (conflictsWith wsId s e)

/-- Modelled from the spec: the atomic re-check-then-write `confirm` of the
Booking Confirmation Manager (§4.6); backend code absent from the shipped
sources.  On conflict fails with "slot no longer available"; otherwise
inserts a fresh Pending allocation. -/
def confirmOp (st : List Allocation) (newId : Nat) (r : AllocationConfirm) :
    Except String (List Allocation) :=
  if hasConflict st r.workspace_id r.start_time r.end_time then
    Except.error "slot no longer available"
  else
    Except.ok ({ id := newId, user_id := r.user_id, workspace_id := r.workspace_id,
                 start_time := r.start_time, end_time := r.end_time,
                 team_size := r.team_size, status := AllocationStatus.Pending } :: st)

/-- Status update applied by cancellation to the targeted allocation. -/
def cancelUpd (aid : Nat) (b : Allocation) : Allocation :=
  if b.id == aid then { b with status := AllocationStatus.Cancelled } else b

/-- Modelled from the spec: `cancel(allocation_id, requester)` of the Booking
Confirmation Manager (§4.6); backend code absent from the shipped sources.
Transitions Pending/Active to Cancelled; fails as a no-op if the allocation
is unknown or already Completed/Cancelled. -/
def cancelOp (st : List Allocation) (aid : Nat) : Except String (List Allocation) :=
  match st.find? (fun a => a.id == aid) with
  | none => Except.error "allocation not found"
  | some a =>
    if isCommitted a.status then
      Except.ok (st.map (cancelUpd aid))
    else
      Except.error "allocation cannot be cancelled"

/-- State of the booking manager: stored allocations plus a fresh-id counter. -/
structure BookingState where
  allocs : List Allocation
  nextId : Nat

/-- One atomic operation against the booking manager. -/
inductive BookingOp where
  | confirmReq (r : AllocationConfirm)
  | cancelReq (aid : Nat)

/-- Apply one atomic operation; failed operations leave the state unchanged. -/
def applyBookingOp (st : BookingState) (op : BookingOp) : BookingState :=
  match op with
  | .confirmReq r =>
    match confirmOp st.allocs st.nextId r with
    | .ok l => { allocs := l, nextId := st.nextId + 1 }
    | .error _ => st
  | .cancelReq aid =>
    match cancelOp st.allocs aid with
    | .ok l => { st with allocs := l }
    | .error _ => st

/-- Run a sequence of operations from the empty store. -/
def runBooking (ops : List BookingOp) : BookingState :=
  ops.foldl applyBookingOp { allocs := [], nextId := 0 }

/-- Two allocations are compatible: if they live on the same workspace and are
both committed, their windows do not overlap. -/
def SepFrom (a b : Allocation) : Prop :=
  a.workspace_id = b.workspace_id → isCommitted a.status = true →
    isCommitted b.status = true →
    overlaps a.start_time a.end_time b.start_time b.end_time = false

instance : DecidablePred (fun p : Allocation × Allocation => SepFrom p.1 p.2) := by
  intro p
  unfold SepFrom
  infer_instance

/-- The §3 invariant: committed allocations are pairwise non-overlapping per
workspace. -/
def NoOverlap (l : List Allocation) : Prop :=
  l.Pairwise SepFrom

/-- Cancel action offered in the history view iff the allocation is Active or
Pending (src/unnamed/part_000, `AllocationHistory` cancel button guard,
lines 150-157). -/
def showCancelButton (a : Allocation) : Bool :=
  (a.status == AllocationStatus.Active) || (a.status == AllocationStatus.Pending)

/-! ## Availability Resolver (`get_status`) -/

/-- The three statuses the status checker displays
(src/unnamed/part_001, `getStatusColor`). -/
inductive WsStatus where
  | Available
  | Occupied
  | Unavailable
deriving DecidableEq

/-- Status record returned by `get_status` (src/unnamed/part_001,
`StatusInfo`). -/
structure StatusInfo where
  status : WsStatus
  occupied_until : Option Int
deriving DecidableEq

/-- Modelled from the spec: "now" as a zero-width probe inside a window
(§4.2): window start ≤ now < window end. -/
def containsNow (now : Int) (a : Allocation) : Bool :=
  decide (a.start_time ≤ now) && decide (now < a.end_time)

/-- Modelled from the spec: the defensive tie-break of §4.2 — among windows
overlapping "now", pick the one with the latest end time. -/
def latestEnding : List Allocation → Option Allocation
  | [] => none
  | a :: rest =>
    match latestEnding rest with
    | none => some a
    | some b => if b.end_time ≤ a.end_time then some a else some b

/-- Modelled from the spec: the Availability Resolver `get_status` (§4.2, §6);
backend code absent from the shipped sources.  Result shape from
src/unnamed/part_001 (`StatusInfo`). -/
def getStatus (ws : Workspace) (allocs : List Allocation) (now : Int) : StatusInfo :=
  if ws.is_available = false then { status := WsStatus.Unavailable, occupied_until := none }
  else
    match latestEnding (allocs.filter
        (fun a => (a.workspace_id == ws.id) && isCommitted a.status && containsNow now a)) with
    | some a => { status := WsStatus.Occupied, occupied_until := some a.end_time }
    | none => { status := WsStatus.Available, occupied_until := none }

/-! ## Frontend API layer: the cancellation request and the auth interceptor -/

/-- One HTTP request as assembled by the axios layer
(src/frontend/src/types.ts).  Only the parts the claims inspect:
an explicit requester parameter (query or body), and the auth header. -/
structure ApiRequest where
  method : String
  path : String
  requesterParam : Option Nat
  authHeader : Option String
deriving DecidableEq

/-- `allocationApi.cancelAllocation` (src/frontend/src/types.ts, lines
233-238): `PUT /allocations/{allocation_id}/cancel`, no body, no explicit
requester argument of any kind. -/
def cancelAllocationRequest (allocationId : Nat) : ApiRequest :=
  { method := "PUT"
    path := "/allocations/" ++ toString allocationId ++ "/cancel"
    requesterParam := none
    authHeader := none }

/-- Browser localStorage as the axios layer sees it: it may hold a session
token under the key "token". -/
structure LocalStorage where
  token : Option String
deriving DecidableEq

/-- `api.interceptors.request` (src/frontend/src/types.ts, lines 194-200):
reads the token from localStorage and, when present, attaches it as a
`Bearer` Authorization header. -/
def requestInterceptor (store : LocalStorage) (req : ApiRequest) : ApiRequest :=
  match store.token with
  | some t => { req with authHeader := some ("Bearer " ++ t) }
  | none => req

/-- The request that actually leaves the client when the user cancels an
allocation. -/
def sendCancelAllocation (store : LocalStorage) (allocationId : Nat) : ApiRequest :=
  requestInterceptor store (cancelAllocationRequest allocationId)

/-! ## Hybrid Scorer and Suggestion Ranker -/

/-- Suggestion request (src/frontend/src/types.ts, `AllocationRequest`). -/
structure AllocationRequest where
  user_id : Nat
  team_size : Int
  start_time : Int
  end_time : Int
  privacy_need : NeedLevel
  collaboration_need : NeedLevel
  required_facilities : List String
  preferred_floor : Option Int
  preferred_type : Option String
  notes : Option String
deriving DecidableEq

/-- Modelled from the spec: output of the opaque Suitability Classifier (§6):
a positive/negative label and a confidence value. -/
structure ClassifierResult where
  label_positive : Bool
  confidence : Rat
deriving DecidableEq

/-- Modelled from the spec: base suitability in [0,100] from label and
confidence, monotone in confidence and continuous at the label boundary
(§4.4); on classifier failure (`none`) degrade to rule-only scoring with
confidence 0 and a degraded-scoring reason. -/
def baseSuitability : Option ClassifierResult → Rat × Rat × List String
  | some c =>
    (if c.label_positive then 50 + 50 * c.confidence else 50 - 50 * c.confidence,
     c.confidence, [])
  | none => (50, 0, ["degraded scoring: classifier unavailable"])

/-- Modelled from the spec: the ordered rule adjustments of the Hybrid Scorer
(§4.4): capacity shortfall, missing facilities (penalty proportional to the
fraction missing), preferred-floor bonus, preferred-type bonus,
privacy-vs-type heuristic; each appends its reason when triggered. -/
def ruleAdjustments (ws : Workspace) (req : AllocationRequest) : Rat × List String :=
  let capacityAdj : Rat × List String :=
    if (ws.capacity : Int) < req.team_size then (-30, ["insufficient capacity"]) else (0, [])
  let missing := req.required_facilities.filter (fun f => !(ws.facilities.contains f))
  let facilityAdj : Rat × List String :=
    if missing.isEmpty then (0, [])
    else (-(40 * (missing.length : Rat) / (req.required_facilities.length : Rat)),
          ["missing facilities: " ++ String.intercalate ", " missing])
  let floorAdj : Rat × List String :=
    match req.preferred_floor with
    | some f => if ws.floor = f then (5, ["matches preferred floor"]) else (0, [])
    | none => (0, [])
  let typeAdj : Rat × List String :=
    match req.preferred_type with
    | some t => if ws.type = t then (5, ["matches preferred type"]) else (0, [])
    | none => (0, [])
  let privacyAdj : Rat × List String :=
    if req.privacy_need = NeedLevel.high ∧ ws.type = "Open Workspace" then
      (-10, ["high privacy need conflicts with open workspace"])
    else if req.privacy_need = NeedLevel.high ∧ ws.type = "Private Office" then
      (10, ["private office suits high privacy need"])
    else (0, [])
  (capacityAdj.1 + facilityAdj.1 + floorAdj.1 + typeAdj.1 + privacyAdj.1,
   capacityAdj.2 ++ facilityAdj.2 ++ floorAdj.2 ++ typeAdj.2 ++ privacyAdj.2)

/-- Final clamp of the suitability to [0,100] (§4.4). -/
def clampScore (x : Rat) : Rat := max 0 (min 100 x)

/-- Modelled from the spec: the Hybrid Scorer `score` (§4.4); backend code
absent from the shipped sources.  Base from the classifier, ordered rule
adjustments, final clamp to [0,100]; returns
(suitability, confidence, ordered reasoning list). -/
def scoreWorkspace (_u : User) (ws : Workspace) (req : AllocationRequest)
    (c : Option ClassifierResult) : Rat × Rat × List String :=
  let base := baseSuitability c
  let adj := ruleAdjustments ws req
  (clampScore (base.1 + adj.1), base.2.1, base.2.2 ++ adj.2)

/-- Suggestion projection returned to the caller (src/frontend/src/types.ts,
`SuggestedWorkspace`; the fields the claims concern). -/
structure SuggestedWorkspace where
  workspace : Workspace
  suitability_score : Rat
  confidence_score : Rat
  reasoning : List String
deriving DecidableEq

/-- Modelled from the spec: deterministic ranking order (§4.5): suitability
descending, then confidence descending, then workspace id ascending. -/
def ranksBefore (x y : SuggestedWorkspace) : Bool :=
  if x.suitability_score ≠ y.suitability_score then
    decide (y.suitability_score < x.suitability_score)
  else if x.confidence_score ≠ y.confidence_score then
    decide (y.confidence_score < x.confidence_score)
  else decide (x.workspace.id ≤ y.workspace.id)

/-- Insertion step of the deterministic sort. -/
def insertRanked (x : SuggestedWorkspace) :
    List SuggestedWorkspace → List SuggestedWorkspace
  | [] => [x]
  | y :: ys => if ranksBefore x y then x :: y :: ys else y :: insertRanked x ys

/-- Deterministic sort of the scored candidates (§4.5). -/
def sortSuggestions (l : List SuggestedWorkspace) : List SuggestedWorkspace :=
  l.foldr insertRanked []

/-- Modelled from the spec: candidate filter of the Suggestion Ranker (§4.5):
administratively available and no committed-window conflict with the
requested interval. -/
def eligibleCandidate (allocs : List Allocation) (req : AllocationRequest)
    (w : Workspace) : Bool :=
  w.is_available && !(hasConflict allocs w.id req.start_time req.end_time)

/-- Modelled from the spec: input validation of `suggest` (§4.5, §7):
`start < end` and `team_size ≥ 1`, checked before any collaborator call. -/
def validateRequest (req : AllocationRequest) : Option String :=
  if ¬ (req.start_time < req.end_time) then some "bad time order"
  else if req.team_size < 1 then some "non-positive team size"
  else none

/-- Modelled from the spec: the Suggestion Ranker `suggest` (§4.5); backend
code absent from the shipped sources.  Returns the result together with the
number of classifier (collaborator) invocations: a validation failure is
rejected with zero collaborator calls; otherwise the classifier runs once per
eligible candidate and the scored candidates are sorted deterministically. -/
def suggestRun (workspaces : List Workspace) (allocs : List Allocation)
    (classify : Workspace → Option ClassifierResult) (u : User)
    (req : AllocationRequest) : Except String (List SuggestedWorkspace) × Nat :=
  match validateRequest req with
  | some msg => (Except.error msg, 0)
  | none =>
    let cands := workspaces.filter (eligibleCandidate allocs req)
    let scored := cands.map (fun w =>
      let r := scoreWorkspace u w req (classify w)
      { workspace := w, suitability_score := r.1, confidence_score := r.2.1,
        reasoning := r.2.2 })
    (Except.ok (sortSuggestions scored), cands.length)

/-! ## Frontend error handler, request form, confirmation page, history -/

/-- One FastAPI validation item as `handleApiError` reads it
(src/frontend/src/types.ts, `ApiError`); `loc` may be absent. -/
structure ValidationItem where
  loc : Option (List String)
  msg : String
  type : String
deriving DecidableEq

/-- The `detail` field of an API error body: a string or a list of validation
items (src/frontend/src/types.ts, `ApiError`). -/
inductive ApiDetail where
  | strDetail (s : String)
  | listDetail (items : List ValidationItem)
deriving DecidableEq

/-- Response body attached to an axios error; `detail` may be absent. -/
structure AxiosErrorData where
  detail : Option ApiDetail
deriving DecidableEq

/-- Any value reaching `handleApiError`: an axios error (with optional
response body and its message) or any non-axios value. -/
inductive ApiErrorInput where
  | axiosErr (responseData : Option AxiosErrorData) (message : String)
  | nonAxios
deriving DecidableEq

/-- The string built per validation item (src/frontend/src/types.ts,
line 384): loc joined by ".", then " - msg (type)"; a missing `loc` renders
as "undefined". -/
def formatValidationItem (it : ValidationItem) : String :=
  (match it.loc with
   | some l => String.intercalate "." l
   | none => "undefined") ++ " - " ++ it.msg ++ " (" ++ it.type ++ ")"

/-- `handleApiError` (src/frontend/src/types.ts, lines 373-391).  JavaScript
truthiness is modelled faithfully: an empty-string `detail` is falsy and
falls through to `error.message`, while an empty list is truthy. -/
def handleApiError : ApiErrorInput → String
  | .axiosErr responseData message =>
    match responseData with
    | some d =>
      match d.detail with
      | some (.strDetail s) => if s = "" then message else s
      | some (.listDetail items) =>
        String.intercalate ", " (items.map formatValidationItem)
      | none => message
    | none => message
  | .nonAxios => "An unexpected error occurred"

/-- Outcome of one submission of the allocation request form: the error
banner, the suggestion list, whether the suggestion API was called, and
whether the catch (exception) handler ran. -/
structure SubmitOutcome where
  errorMsg : Option String
  suggestions : List SuggestedWorkspace
  apiCalled : Bool
  caughtException : Bool
deriving DecidableEq

/-- `handleSubmit` of the allocation request form
(src/frontend/src/components/allocation/AllocationRequestForm.tsx,
lines 112-159): reject when unauthenticated; reject with a validation
message when a time is missing or start ≥ end, before any API call;
otherwise issue the suggestion call (`resp` is the collaborator's answer) —
an empty result is handled on the success path with an informational
message, an exception goes through `handleApiError`. -/
def handleSubmit (u : Option User) (isAuthenticated : Bool)
    (startTime endTime : Option Int)
    (resp : Except ApiErrorInput (List SuggestedWorkspace)) : SubmitOutcome :=
  if u.isNone || !isAuthenticated then
    { errorMsg := some "User not authenticated. Please log in.",
      suggestions := [], apiCalled := false, caughtException := false }
  else
    match startTime, endTime with
    | some s, some e =>
      if e ≤ s then
        { errorMsg := some "Please provide valid start and end times.",
          suggestions := [], apiCalled := false, caughtException := false }
      else
        match resp with
        | .ok result =>
          { errorMsg := if result.isEmpty then
              some "No suitable workspaces found for your request." else none,
            suggestions := result, apiCalled := true, caughtException := false }
        | .error err =>
          { errorMsg := some (handleApiError err),
            suggestions := [], apiCalled := true, caughtException := true }
    | _, _ =>
      { errorMsg := some "Please provide valid start and end times.",
        suggestions := [], apiCalled := false, caughtException := false }

/-- Events the confirmation page reacts to
(src/frontend/src/components/allocation/ConfirmAllocation.tsx). -/
inductive ConfirmEvent where
  | mount
  | clickConfirm
deriving DecidableEq

/-- Observable effects of the confirmation page: whether it redirected to the
home route and which confirm requests it issued. -/
structure ConfirmTrace where
  redirected : Bool
  confirmCalls : List AllocationConfirm
deriving DecidableEq

/-- One step of `ConfirmAllocation`
(src/frontend/src/components/allocation/ConfirmAllocation.tsx, lines 20-69):
on mount, missing navigation state redirects to "/" and sends nothing; a
confirm click issues the confirm API call only when the confirmation data is
present. -/
def confirmStep (navState : Option AllocationConfirm) (tr : ConfirmTrace)
    (e : ConfirmEvent) : ConfirmTrace :=
  match e with
  | .mount =>
    match navState with
    | none => { tr with redirected := true }
    | some _ => tr
  | .clickConfirm =>
    match navState with
    | none => tr
    | some d => { tr with confirmCalls := tr.confirmCalls ++ [d] }

/-- Run the confirmation page over a sequence of events. -/
def runConfirm (navState : Option AllocationConfirm)
    (events : List ConfirmEvent) : ConfirmTrace :=
  events.foldl (confirmStep navState) { redirected := false, confirmCalls := [] }

/-- Auth context state as `useAuth` exposes it
(src/frontend/src/context/AuthContext.tsx). -/
structure AuthState where
  isAuthLoading : Bool
  isAuthenticated : Bool
  user : Option User
deriving DecidableEq

/-- Query parameters of the history request (src/frontend/src/types.ts,
`AllocationHistoryParams`; only the fields `fetchAllocations` sets). -/
structure HistoryParams where
  user_id : Option Nat
  status : Option AllocationStatus
deriving DecidableEq

/-- The request issued by `fetchAllocations` (src/unnamed/part_000, lines
25-50): no request while auth is loading, unauthenticated or without a user;
otherwise the params carry `user_id := user.id` and the optional status
filter. -/
def fetchAllocationsRequest (auth : AuthState)
    (filterStatus : Option AllocationStatus) : Option HistoryParams :=
  if auth.isAuthLoading || !auth.isAuthenticated || auth.user.isNone then none
  else
    match auth.user with
    | some u => some { user_id := some u.id, status := filterStatus }
    | none => none

/-- The allocation list the history view displays, given the backend's
response to the issued request; with no request the list is reset to []. -/
def fetchAllocationsResult (auth : AuthState)
    (filterStatus : Option AllocationStatus)
    (backend : HistoryParams → List Allocation) : List Allocation :=
  match fetchAllocationsRequest auth filterStatus with
  | none => []
  | some p => backend p

/-! ## Shared concrete sample data for the witnesses -/

def sampleUser : User :=
  { id := 1, email := "alice@corp.example", full_name := "Alice Doe",
    level := "senior", department := "engineering", is_active := true }

def sampleRequest : AllocationRequest :=
  { user_id := 1, team_size := 2, start_time := 0, end_time := 60,
    privacy_need := NeedLevel.low, collaboration_need := NeedLevel.low,
    required_facilities := [], preferred_floor := none, preferred_type := none,
    notes := none }

def badRequest : AllocationRequest :=
  { user_id := 1, team_size := 2, start_time := 60, end_time := 0,
    privacy_need := NeedLevel.low, collaboration_need := NeedLevel.low,
    required_facilities := [], preferred_floor := none, preferred_type := none,
    notes := none }

def closedWorkspace : Workspace :=
  { id := 2, name := "Room B", type := "Hot Desk", floor := 1, capacity := 1,
    facilities := [], is_available := false }

def openWorkspace : Workspace :=
  { id := 1, name := "Room A", type := "Meeting Room", floor := 2, capacity := 6,
    facilities := ["Whiteboard"], is_available := true }

def sampleConfirm : AllocationConfirm :=
  { user_id := 1, workspace_id := 1, start_time := 0, end_time := 60, team_size := 2 }

/-! ## Theorems -/

/-- `overlaps` is symmetric in its two intervals. -/
theorem overlaps_comm (a b c d : Int) : overlaps a b c d = overlaps c d a b := by
  simp [overlaps, Bool.and_comm]

theorem hasConflict_eq_false_iff (st : List Allocation) (wsId : Nat) (s e : Int) :
    hasConflict st wsId s e = false ↔ ∀ a ∈ st, conflictsWith wsId s e a = false := by
  simp [hasConflict, List.any_eq_true]

theorem cancelUpd_id (aid : Nat) (b : Allocation) : (cancelUpd aid b).id = b.id := by
  unfold cancelUpd
  split <;> rfl

theorem cancelUpd_workspace (aid : Nat) (b : Allocation) :
    (cancelUpd aid b).workspace_id = b.workspace_id := by
  unfold cancelUpd
  split <;> rfl

theorem cancelUpd_window (aid : Nat) (b : Allocation) :
    (cancelUpd aid b).start_time = b.start_time ∧ (cancelUpd aid b).end_time = b.end_time := by
  unfold cancelUpd
  split <;> exact ⟨rfl, rfl⟩

theorem sepFrom_cancelUpd (aid : Nat) (a b : Allocation) (h : SepFrom a b) :
    SepFrom (cancelUpd aid a) (cancelUpd aid b) := by
  unfold SepFrom cancelUpd
  by_cases ha : (a.id == aid) = true
  · rw [if_pos ha]
    intro _ hca _
    simp [isCommitted] at hca
  · rw [if_neg ha]
    by_cases hb : (b.id == aid) = true
    · rw [if_pos hb]
      intro _ _ hcb
      simp [isCommitted] at hcb
    · rw [if_neg hb]
      exact h

theorem noOverlap_confirmOp (st : List Allocation) (newId : Nat) (r : AllocationConfirm)
    (l : List Allocation) (h : NoOverlap st) (hok : confirmOp st newId r = Except.ok l) :
    NoOverlap l := by
  unfold confirmOp at hok
  split at hok
  · exact absurd hok (by simp)
  · rename_i hcf
    simp only [Bool.not_eq_true] at hcf
    cases hok
    refine List.Pairwise.cons ?_ h
    intro a ha hws hc1 hc2
    have hfa := (hasConflict_eq_false_iff st r.workspace_id r.start_time r.end_time).mp hcf a ha
    unfold conflictsWith at hfa
    simp only [Bool.and_eq_false_iff, beq_eq_false_iff_ne, ne_eq] at hfa
    rcases hfa with (hfa | hfa) | hfa
    · exact absurd hws.symm hfa
    · exact absurd hc2 (by simp [hfa])
    · rw [overlaps_comm]
      exact hfa

theorem noOverlap_cancelOp (st : List Allocation) (aid : Nat) (l : List Allocation)
    (h : NoOverlap st) (hok : cancelOp st aid = Except.ok l) : NoOverlap l := by
  unfold cancelOp at hok
  split at hok
  · exact absurd hok (by simp)
  · split at hok
    · cases hok
      rw [NoOverlap, List.pairwise_map]
      exact h.imp (fun hab => sepFrom_cancelUpd aid _ _ hab)
    · exact absurd hok (by simp)

theorem noOverlap_applyBookingOp (st : BookingState) (op : BookingOp)
    (h : NoOverlap st.allocs) : NoOverlap (applyBookingOp st op).allocs := by
  cases op with
  | confirmReq r =>
    cases hok : confirmOp st.allocs st.nextId r with
    | ok l =>
      simp only [applyBookingOp, hok]
      exact noOverlap_confirmOp st.allocs st.nextId r l h hok
    | error e =>
      simp only [applyBookingOp, hok]
      exact h
  | cancelReq aid =>
    cases hok : cancelOp st.allocs aid with
    | ok l =>
      simp only [applyBookingOp, hok]
      exact noOverlap_cancelOp st.allocs aid l h hok
    | error e =>
      simp only [applyBookingOp, hok]
      exact h

theorem noOverlap_foldl (ops : List BookingOp) :
    ∀ st : BookingState, NoOverlap st.allocs →
      NoOverlap (ops.foldl applyBookingOp st).allocs := by
  induction ops with
  | nil => intro st h; exact h
  | cons op rest ih =>
    intro st h
    exact ih (applyBookingOp st op) (noOverlap_applyBookingOp st op h)

/-- C1: after any sequence of atomic confirm/cancel operations (concurrent
executions are interleavings of these atomic steps, per the spec's atomicity
requirement), the committed (Pending/Active) allocations of each workspace are
pairwise non-overlapping; moreover, once one confirmation for a window has
succeeded, a second confirmation for an overlapping window on the same
workspace always fails, so two racing confirmations never both succeed. -/
theorem confirm_cancel_no_overlap (ops : List BookingOp) :
    NoOverlap (runBooking ops).allocs ∧
    (∀ (st : List Allocation) (n1 n2 : Nat) (r1 r2 : AllocationConfirm)
        (l1 : List Allocation),
      confirmOp st n1 r1 = Except.ok l1 →
      r2.workspace_id = r1.workspace_id →
      overlaps r2.start_time r2.end_time r1.start_time r1.end_time = true →
      confirmOp l1 n2 r2 = Except.error "slot no longer available") := by
  constructor
  · exact noOverlap_foldl ops { allocs := [], nextId := 0 } List.Pairwise.nil
  · intro st n1 n2 r1 r2 l1 hok hws hov
    unfold confirmOp at hok
    split at hok
    · exact absurd hok (by simp)
    · cases hok
      unfold confirmOp
      have hhead : hasConflict
          ({ id := n1, user_id := r1.user_id, workspace_id := r1.workspace_id,
             start_time := r1.start_time, end_time := r1.end_time,
             team_size := r1.team_size, status := AllocationStatus.Pending } :: st)
          r2.workspace_id r2.start_time r2.end_time = true := by
        unfold hasConflict
        rw [List.any_cons]
        apply Bool.or_eq_true_iff.mpr
        left
        unfold conflictsWith
        simp only [isCommitted, Bool.and_eq_true, beq_iff_eq]
        exact ⟨⟨hws.symm, trivial⟩, by rw [overlaps_comm]; exact hov⟩
      rw [hhead]
      simp

/-- C1 witness: a concrete run, and the concrete second confirmation losing the
race. -/
theorem confirm_cancel_no_overlap_witness :
    NoOverlap (runBooking
      [BookingOp.confirmReq { user_id := 1, workspace_id := 1, start_time := 0,
                              end_time := 10, team_size := 2 },
       BookingOp.confirmReq { user_id := 2, workspace_id := 1, start_time := 5,
                              end_time := 15, team_size := 3 }]).allocs ∧
    confirmOp
      [{ id := 0, user_id := 1, workspace_id := 1, start_time := 0, end_time := 10,
         team_size := 2, status := AllocationStatus.Pending }] 1
      { user_id := 2, workspace_id := 1, start_time := 5, end_time := 15, team_size := 3 }
      = Except.error "slot no longer available" := by
  refine ⟨(confirm_cancel_no_overlap _).1, ?_⟩
  exact (confirm_cancel_no_overlap []).2 [] 0 1
    { user_id := 1, workspace_id := 1, start_time := 0, end_time := 10, team_size := 2 }
    { user_id := 2, workspace_id := 1, start_time := 5, end_time := 15, team_size := 3 }
    _ rfl rfl (by decide)

theorem find?_map_cancelUpd (aid : Nat) (l : List Allocation) :
    (l.map (cancelUpd aid)).find? (fun b => b.id == aid) =
      (l.find? (fun b => b.id == aid)).map (cancelUpd aid) := by
  induction l with
  | nil => rfl
  | cons x xs ih =>
    by_cases hx : (x.id == aid) = true
    · have hx2 : ((cancelUpd aid x).id == aid) = true := by rw [cancelUpd_id]; exact hx
      simp [List.find?, hx, hx2]
    · have hx2 : ¬ ((cancelUpd aid x).id == aid) = true := by rw [cancelUpd_id]; exact hx
      simp only [List.map_cons, List.find?]
      rw [Bool.eq_false_iff.mpr hx2, Bool.eq_false_iff.mpr hx]
      exact ih

theorem cancelUpd_of_found (aid : Nat) (a : Allocation)
    (h : (a.id == aid) = true) :
    cancelUpd aid a = { a with status := AllocationStatus.Cancelled } := by
  unfold cancelUpd
  rw [if_pos h]

/-- C3: cancellation is possible exactly for Pending/Active allocations.  The
history view offers the cancel action iff the status is Active or Pending
(from the source); the modelled backend `cancel` turns the targeted
Pending/Active allocation into Cancelled, fails on a Completed/Cancelled
allocation, fails again (same failure) right after a successful cancel, and a
failed cancel leaves the stored state unchanged. -/
theorem cancel_lifecycle :
    (∀ a : Allocation, showCancelButton a = true ↔
       (a.status = AllocationStatus.Active ∨ a.status = AllocationStatus.Pending)) ∧
    (∀ (st : List Allocation) (aid : Nat) (a : Allocation),
       st.find? (fun b => b.id == aid) = some a →
       (isCommitted a.status = true →
          cancelOp st aid = Except.ok (st.map (cancelUpd aid)) ∧
          (st.map (cancelUpd aid)).find? (fun b => b.id == aid) =
            some { a with status := AllocationStatus.Cancelled }) ∧
       (isCommitted a.status = false →
          cancelOp st aid = Except.error "allocation cannot be cancelled")) ∧
    (∀ (st l : List Allocation) (aid : Nat),
       cancelOp st aid = Except.ok l →
       cancelOp l aid = Except.error "allocation cannot be cancelled") ∧
    (∀ (st : BookingState) (aid : Nat) (msg : String),
       cancelOp st.allocs aid = Except.error msg →
       applyBookingOp st (BookingOp.cancelReq aid) = st) := by
  refine ⟨?_, ?_, ?_, ?_⟩
  · intro a
    cases h : a.status <;> simp [showCancelButton, h]
  · intro st aid a hfind
    have hpa := List.find?_some hfind
    constructor
    · intro hc
      refine ⟨?_, ?_⟩
      · simp [cancelOp, hfind, hc]
      · rw [find?_map_cancelUpd, hfind]
        simp [cancelUpd_of_found aid a hpa]
    · intro hc
      simp [cancelOp, hfind, hc]
  · intro st l aid hok
    cases hfind : st.find? (fun b => b.id == aid) with
    | none => simp [cancelOp, hfind] at hok
    | some a =>
      by_cases hc : isCommitted a.status = true
      · have hok2 : st.map (cancelUpd aid) = l := by
          simpa [cancelOp, hfind, hc] using hok
        subst hok2
        have hpa := List.find?_some hfind
        have hgoal : (st.map (cancelUpd aid)).find? (fun b => b.id == aid)
            = some { a with status := AllocationStatus.Cancelled } := by
          rw [find?_map_cancelUpd, hfind]
          simp [cancelUpd_of_found aid a hpa]
        unfold cancelOp
        rw [hgoal]
        simp [isCommitted]
      · simp [cancelOp, hfind, hc] at hok
  · intro st aid msg herr
    simp only [applyBookingOp, herr]

/-- C3 witness: cancelling a concrete Pending allocation succeeds and marks it
Cancelled; cancelling it a second time fails as a no-op. -/
theorem cancel_lifecycle_witness :
    (cancelOp [{ id := 1, user_id := 1, workspace_id := 1, start_time := 0, end_time := 10,
                 team_size := 2, status := AllocationStatus.Pending }] 1 =
       Except.ok ([{ id := 1, user_id := 1, workspace_id := 1, start_time := 0, end_time := 10,
                     team_size := 2,
                     status := AllocationStatus.Pending }].map (cancelUpd 1))) ∧
    cancelOp ([{ id := 1, user_id := 1, workspace_id := 1, start_time := 0, end_time := 10,
                 team_size := 2, status := AllocationStatus.Pending }].map (cancelUpd 1)) 1 =
      Except.error "allocation cannot be cancelled" := by
  have h1 := (cancel_lifecycle.2.1
    [{ id := 1, user_id := 1, workspace_id := 1, start_time := 0, end_time := 10,
       team_size := 2, status := AllocationStatus.Pending }] 1
    { id := 1, user_id := 1, workspace_id := 1, start_time := 0, end_time := 10,
      team_size := 2, status := AllocationStatus.Pending } rfl).1 rfl
  exact ⟨h1.1, cancel_lifecycle.2.2.1 _ _ 1 h1.1⟩

theorem latestEnding_mem (l : List Allocation) (a : Allocation)
    (h : latestEnding l = some a) : a ∈ l := by
  induction l with
  | nil => cases h
  | cons x xs ih =>
    unfold latestEnding at h
    cases hx : latestEnding xs with
    | none =>
      rw [hx] at h
      cases h
      exact List.mem_cons_self _ _
    | some b =>
      rw [hx] at h
      dsimp only at h
      by_cases hbe : b.end_time ≤ x.end_time
      · rw [if_pos hbe] at h
        cases h
        exact List.mem_cons_self _ _
      · rw [if_neg hbe] at h
        cases h
        exact List.mem_cons_of_mem _ (ih hx)

/-- C5: `get_status` returns a record whose status ranges over Available,
Occupied, Unavailable (the type `WsStatus`); `occupied_until` is present
exactly when the status is Occupied, in which case it is the end of a
committed window of that workspace containing "now"; an administratively
unavailable workspace reports Unavailable with no occupied-until value. -/
theorem get_status_contract (ws : Workspace) (allocs : List Allocation) (now : Int) :
    ((getStatus ws allocs now).occupied_until.isSome = true ↔
       (getStatus ws allocs now).status = WsStatus.Occupied) ∧
    (ws.is_available = false →
       getStatus ws allocs now = { status := WsStatus.Unavailable, occupied_until := none }) ∧
    ((getStatus ws allocs now).status = WsStatus.Occupied →
       ∃ a ∈ allocs, a.workspace_id = ws.id ∧ isCommitted a.status = true ∧
         a.start_time ≤ now ∧ now < a.end_time ∧
         (getStatus ws allocs now).occupied_until = some a.end_time) := by
  by_cases hav : ws.is_available = false
  · refine ⟨?_, fun _ => ?_, ?_⟩ <;> simp [getStatus, hav]
  · have hav' : ws.is_available = true := by
      cases h : ws.is_available
      · exact absurd h hav
      · rfl
    cases hle : latestEnding (allocs.filter
        (fun a => (a.workspace_id == ws.id) && isCommitted a.status && containsNow now a)) with
    | none =>
      refine ⟨?_, fun hf => absurd hf hav, ?_⟩ <;> simp [getStatus, hav', hle]
    | some a =>
      have hmem := latestEnding_mem _ a hle
      rw [List.mem_filter] at hmem
      obtain ⟨hma, hpred⟩ := hmem
      simp only [Bool.and_eq_true, beq_iff_eq, containsNow, decide_eq_true_eq] at hpred
      refine ⟨?_, fun hf => absurd hf hav, fun _ => ?_⟩
      · simp [getStatus, hav', hle]
      · exact ⟨a, hma, hpred.1.1, hpred.1.2, hpred.2.1, hpred.2.2,
          by simp [getStatus, hav', hle]⟩

/-- C5 witness: a concrete unavailable workspace reports Unavailable with no
occupied-until; a concrete occupied workspace reports the containing window's
end. -/
theorem get_status_contract_witness :
    getStatus { id := 2, name := "Room B", type := "Hot Desk", floor := 1, capacity := 1,
                facilities := [], is_available := false } [] 0 =
      { status := WsStatus.Unavailable, occupied_until := none } ∧
    (∃ a ∈ [({ id := 1, user_id := 1, workspace_id := 1, start_time := 0, end_time := 10,
               team_size := 2, status := AllocationStatus.Pending } : Allocation)],
       a.workspace_id = ({ id := 1, name := "Room A", type := "Meeting Room", floor := 2,
                           capacity := 6, facilities := ["Whiteboard"],
                           is_available := true } : Workspace).id ∧
       isCommitted a.status = true ∧ a.start_time ≤ (5 : Int) ∧ (5 : Int) < a.end_time ∧
       (getStatus { id := 1, name := "Room A", type := "Meeting Room", floor := 2,
                    capacity := 6, facilities := ["Whiteboard"], is_available := true }
          [{ id := 1, user_id := 1, workspace_id := 1, start_time := 0, end_time := 10,
             team_size := 2, status := AllocationStatus.Pending }] 5).occupied_until =
         some a.end_time) := by
  constructor
  · exact (get_status_contract
      { id := 2, name := "Room B", type := "Hot Desk", floor := 1, capacity := 1,
        facilities := [], is_available := false } [] 0).2.1 rfl
  · exact (get_status_contract
      { id := 1, name := "Room A", type := "Meeting Room", floor := 2, capacity := 6,
        facilities := ["Whiteboard"], is_available := true }
      [{ id := 1, user_id := 1, workspace_id := 1, start_time := 0, end_time := 10,
         team_size := 2, status := AllocationStatus.Pending }] 5).2.2 (by decide)

/-- C6 counterexample: at allocation id 7 with session token "tok" stored,
the cancel call carries no explicit requester argument at all, and the
requester identity it does carry is exactly the ambient localStorage token
attached by the interceptor (present iff a token is stored) — refuting the
claim that cancel receives the requester explicitly and never reads
ambient/global state. -/
theorem cancel_requester_counterexample :
    (sendCancelAllocation { token := some "tok" } 7).requesterParam = none ∧
    (sendCancelAllocation { token := some "tok" } 7).authHeader = some "Bearer tok" ∧
    (sendCancelAllocation { token := none } 7).authHeader = none := by
  exact ⟨rfl, rfl, rfl⟩

/-- C6 (amended): the frontend cancellation path calls
`cancelAllocation(allocation_id)` with only the allocation id — no explicit
requester argument — and the requester identity is attached implicitly by the
request interceptor as a Bearer Authorization header read from the session
token stored in localStorage, exactly when such a token is stored. -/
theorem cancel_requester_amended (store : LocalStorage) (allocationId : Nat) :
    (sendCancelAllocation store allocationId).requesterParam = none ∧
    (sendCancelAllocation store allocationId).method = "PUT" ∧
    (sendCancelAllocation store allocationId).path =
      "/allocations/" ++ toString allocationId ++ "/cancel" ∧
    (sendCancelAllocation store allocationId).authHeader =
      store.token.map (fun t => "Bearer " ++ t) := by
  cases store with
  | mk tok =>
    cases tok <;>
      simp [sendCancelAllocation, cancelAllocationRequest, requestInterceptor]

/-- C7: every suggestion's suitability lies in [0,100] after the final clamp,
its confidence lies in [0,1] given the classifier contract that classifier
confidence is in [0,1] (degraded scoring uses 0), and the reasoning is the
ordered `List String` component of the result. -/
theorem score_in_bounds (u : User) (ws : Workspace) (req : AllocationRequest)
    (c : Option ClassifierResult)
    (hc : ∀ r, c = some r → 0 ≤ r.confidence ∧ r.confidence ≤ 1) :
    0 ≤ (scoreWorkspace u ws req c).1 ∧ (scoreWorkspace u ws req c).1 ≤ 100 ∧
    0 ≤ (scoreWorkspace u ws req c).2.1 ∧ (scoreWorkspace u ws req c).2.1 ≤ 1 := by
  have h1 : (scoreWorkspace u ws req c).1 =
      clampScore ((baseSuitability c).1 + (ruleAdjustments ws req).1) := rfl
  have h2 : (scoreWorkspace u ws req c).2.1 = (baseSuitability c).2.1 := rfl
  rw [h1, h2, clampScore]
  refine ⟨le_max_left 0 _, max_le (by norm_num) (min_le_left _ _), ?_, ?_⟩
  · cases c with
    | none => norm_num [baseSuitability]
    | some r => simpa [baseSuitability] using (hc r rfl).1
  · cases c with
    | none => norm_num [baseSuitability]
    | some r => simpa [baseSuitability] using (hc r rfl).2

/-- C7 witness: concrete bounds at a concrete classifier output. -/
theorem score_in_bounds_witness :
    0 ≤ (scoreWorkspace sampleUser openWorkspace sampleRequest
          (some { label_positive := true, confidence := 1/2 })).1 ∧
    (scoreWorkspace sampleUser openWorkspace sampleRequest
          (some { label_positive := true, confidence := 1/2 })).1 ≤ 100 ∧
    0 ≤ (scoreWorkspace sampleUser openWorkspace sampleRequest
          (some { label_positive := true, confidence := 1/2 })).2.1 ∧
    (scoreWorkspace sampleUser openWorkspace sampleRequest
          (some { label_positive := true, confidence := 1/2 })).2.1 ≤ 1 :=
  score_in_bounds sampleUser openWorkspace sampleRequest
    (some { label_positive := true, confidence := 1/2 })
    (fun r hr => by cases hr; exact ⟨by norm_num, by norm_num⟩)

/-- C2: a suggestion request violating `start < end` or `team_size ≥ 1` is
rejected as a validation error with zero collaborator calls; a request
satisfying both proceeds to a successful suggestion call with one classifier
call per eligible candidate.  On the frontend, `handleSubmit` refuses to
issue the API call when start ≥ end, and issues it when the times are
valid. -/
theorem suggest_validation (workspaces : List Workspace) (allocs : List Allocation)
    (classify : Workspace → Option ClassifierResult) (u : User)
    (req : AllocationRequest) :
    (¬ (req.start_time < req.end_time) ∨ req.team_size < 1 →
       ∃ msg, suggestRun workspaces allocs classify u req = (Except.error msg, 0)) ∧
    (req.start_time < req.end_time → 1 ≤ req.team_size →
       (∃ l, (suggestRun workspaces allocs classify u req).1 = Except.ok l) ∧
       (suggestRun workspaces allocs classify u req).2 =
         (workspaces.filter (eligibleCandidate allocs req)).length) ∧
    (∀ (u2 : User) (s e : Int) (resp : Except ApiErrorInput (List SuggestedWorkspace)),
       e ≤ s → handleSubmit (some u2) true (some s) (some e) resp =
         { errorMsg := some "Please provide valid start and end times.",
           suggestions := [], apiCalled := false, caughtException := false }) ∧
    (∀ (u2 : User) (s e : Int) (result : List SuggestedWorkspace), s < e →
       (handleSubmit (some u2) true (some s) (some e)
         (Except.ok result)).apiCalled = true) := by
  refine ⟨?_, ?_, ?_, ?_⟩
  · intro h
    by_cases ht : req.start_time < req.end_time
    · rcases h with h | h
      · exact absurd ht h
      · refine ⟨"non-positive team size", ?_⟩
        have hv : validateRequest req = some "non-positive team size" := by
          simp [validateRequest, ht, h]
        simp only [suggestRun]
        rw [hv]
    · refine ⟨"bad time order", ?_⟩
      have hv : validateRequest req = some "bad time order" := by
        simp [validateRequest, ht]
      simp only [suggestRun]
      rw [hv]
  · intro ht hteam
    have hv : validateRequest req = none := by
      simp [validateRequest, ht, not_lt.mpr hteam]
    constructor
    · have hok : (suggestRun workspaces allocs classify u req).1 =
          Except.ok (sortSuggestions
            ((workspaces.filter (eligibleCandidate allocs req)).map (fun w =>
              { workspace := w,
                suitability_score := (scoreWorkspace u w req (classify w)).1,
                confidence_score := (scoreWorkspace u w req (classify w)).2.1,
                reasoning := (scoreWorkspace u w req (classify w)).2.2 }))) := by
        simp only [suggestRun]
        rw [hv]
      exact ⟨_, hok⟩
    · simp only [suggestRun]
      rw [hv]
  · intro u2 s e resp he
    simp [handleSubmit, he]
  · intro u2 s e result hlt
    have hns : ¬ e ≤ s := not_le.mpr hlt
    simp [handleSubmit, hns]

/-- C2 witness: a concrete invalid request is rejected with zero collaborator
calls, a concrete valid request succeeds; the form refuses a reversed window
and calls the API on a valid one. -/
theorem suggest_validation_witness :
    (∃ msg, suggestRun [] [] (fun _ => none) sampleUser badRequest =
       (Except.error msg, 0)) ∧
    (∃ l, (suggestRun [] [] (fun _ => none) sampleUser sampleRequest).1 =
       Except.ok l) ∧
    handleSubmit (some sampleUser) true (some 60) (some 0) (Except.ok []) =
      { errorMsg := some "Please provide valid start and end times.",
        suggestions := [], apiCalled := false, caughtException := false } ∧
    (handleSubmit (some sampleUser) true (some 0) (some 60)
       (Except.ok [])).apiCalled = true := by
  refine ⟨?_, ?_, ?_, ?_⟩
  · exact (suggest_validation [] [] (fun _ => none) sampleUser badRequest).1
      (Or.inl (by decide))
  · exact ((suggest_validation [] [] (fun _ => none) sampleUser sampleRequest).2.1
      (by decide) (by decide)).1
  · exact (suggest_validation [] [] (fun _ => none) sampleUser badRequest).2.2.1
      sampleUser 60 0 (Except.ok []) (by decide)
  · exact (suggest_validation [] [] (fun _ => none) sampleUser badRequest).2.2.2
      sampleUser 0 60 [] (by decide)

/-- C4: with zero available workspaces (all administratively unavailable) a
valid suggestion request succeeds with the empty list — not an error, and
zero collaborator calls; the frontend handles the empty list on the success
path (the exception handler does not run), storing the empty list and an
informational message. -/
theorem suggest_empty_ok (workspaces : List Workspace) (allocs : List Allocation)
    (classify : Workspace → Option ClassifierResult) (u : User)
    (req : AllocationRequest)
    (hws : ∀ w ∈ workspaces, w.is_available = false)
    (ht : req.start_time < req.end_time) (hteam : 1 ≤ req.team_size) :
    suggestRun workspaces allocs classify u req = (Except.ok [], 0) ∧
    (∀ (u2 : User) (s e : Int), s < e →
       handleSubmit (some u2) true (some s) (some e) (Except.ok []) =
         { errorMsg := some "No suitable workspaces found for your request.",
           suggestions := [], apiCalled := true, caughtException := false }) := by
  constructor
  · have hv : validateRequest req = none := by
      simp [validateRequest, ht, not_lt.mpr hteam]
    have hfilter : workspaces.filter (eligibleCandidate allocs req) = [] := by
      rw [List.filter_eq_nil_iff]
      intro w hw
      simp [eligibleCandidate, hws w hw]
    simp only [suggestRun]
    rw [hv, hfilter]
    rfl
  · intro u2 s e hlt
    have hns : ¬ e ≤ s := not_le.mpr hlt
    simp [handleSubmit, hns]

/-- C4 witness: a concrete all-unavailable store yields the empty list with no
error, and the form keeps it on the success path. -/
theorem suggest_empty_ok_witness :
    suggestRun [closedWorkspace] [] (fun _ => none) sampleUser sampleRequest =
      (Except.ok [], 0) ∧
    handleSubmit (some sampleUser) true (some 0) (some 60) (Except.ok []) =
      { errorMsg := some "No suitable workspaces found for your request.",
        suggestions := [], apiCalled := true, caughtException := false } := by
  have h := suggest_empty_ok [closedWorkspace] [] (fun _ => none) sampleUser
    sampleRequest (by decide) (by decide) (by decide)
  exact ⟨h.1, h.2 sampleUser 0 60 (by decide)⟩

theorem runConfirm_none_calls (events : List ConfirmEvent) :
    ∀ tr : ConfirmTrace,
      (events.foldl (confirmStep none) tr).confirmCalls = tr.confirmCalls := by
  induction events with
  | nil => intro tr; rfl
  | cons e es ih =>
    intro tr
    rw [List.foldl_cons]
    cases e with
    | mount =>
      rw [ih]
      rfl
    | clickConfirm =>
      rw [ih]
      rfl

theorem runConfirm_none_redirect (events : List ConfirmEvent) :
    ∀ tr : ConfirmTrace, tr.redirected = true ∨ ConfirmEvent.mount ∈ events →
      (events.foldl (confirmStep none) tr).redirected = true := by
  induction events with
  | nil =>
    intro tr h
    rcases h with h | h
    · exact h
    · cases h
  | cons e es ih =>
    intro tr h
    rw [List.foldl_cons]
    cases e with
    | mount => exact ih _ (Or.inl rfl)
    | clickConfirm =>
      apply ih
      rcases h with h | h
      · exact Or.inl h
      · rcases List.mem_cons.mp h with heq | hmem
        · exact absurd heq (by decide)
        · exact Or.inr hmem

theorem runConfirm_some_calls (d : AllocationConfirm) (events : List ConfirmEvent) :
    ∀ tr : ConfirmTrace, (∀ c ∈ tr.confirmCalls, c = d) →
      ∀ c ∈ (events.foldl (confirmStep (some d)) tr).confirmCalls, c = d := by
  induction events with
  | nil => intro tr h; exact h
  | cons e es ih =>
    intro tr h
    rw [List.foldl_cons]
    apply ih
    cases e with
    | mount => exact h
    | clickConfirm =>
      intro c hc
      rcases List.mem_append.mp hc with hc | hc
      · exact h c hc
      · exact List.mem_singleton.mp hc

theorem runConfirm_some_noclick (d : AllocationConfirm) (events : List ConfirmEvent) :
    ∀ tr : ConfirmTrace, ConfirmEvent.clickConfirm ∉ events →
      (events.foldl (confirmStep (some d)) tr).confirmCalls = tr.confirmCalls := by
  induction events with
  | nil => intro tr _; rfl
  | cons e es ih =>
    intro tr hno
    rw [List.foldl_cons]
    have hno2 : ConfirmEvent.clickConfirm ∉ es :=
      fun hm => hno (List.mem_cons_of_mem _ hm)
    cases e with
    | mount =>
      rw [ih _ hno2]
      rfl
    | clickConfirm => exact absurd (List.mem_cons_self _ _) hno

/-- C8: with no confirmation data in the navigation state the page issues no
confirm call and redirects home on mount; with data present, every issued
confirm call carries exactly that data and none is issued without an
explicit confirm click. -/
theorem confirm_page_guard (events : List ConfirmEvent) :
    (runConfirm none events).confirmCalls = [] ∧
    (ConfirmEvent.mount ∈ events → (runConfirm none events).redirected = true) ∧
    (∀ d : AllocationConfirm,
       (∀ c ∈ (runConfirm (some d) events).confirmCalls, c = d) ∧
       (ConfirmEvent.clickConfirm ∉ events →
          (runConfirm (some d) events).confirmCalls = [])) := by
  refine ⟨?_, ?_, ?_⟩
  · exact runConfirm_none_calls events _
  · intro hm
    exact runConfirm_none_redirect events _ (Or.inr hm)
  · intro d
    refine ⟨runConfirm_some_calls d events _ ?_,
            fun hno => runConfirm_some_noclick d events _ hno⟩
    intro c hc
    cases hc

/-- C8 witness: concrete event sequences — a visit without data redirects and
never calls confirm; with data, no click means no confirm call. -/
theorem confirm_page_guard_witness :
    (runConfirm none [ConfirmEvent.mount, ConfirmEvent.clickConfirm]).redirected
      = true ∧
    (runConfirm (some sampleConfirm) [ConfirmEvent.mount]).confirmCalls = [] := by
  refine ⟨(confirm_page_guard [ConfirmEvent.mount, ConfirmEvent.clickConfirm]).2.1
    (by decide), ?_⟩
  exact ((confirm_page_guard [ConfirmEvent.mount]).2.2 sampleConfirm).2 (by decide)

/-- C9: `handleApiError` is total and never throws — its value is fully
described on every shape of input: a (truthy) string `detail` is returned
verbatim, an empty-string `detail` is falsy and falls through to the axios
message, a list `detail` is formatted and joined, a missing body or missing
`detail` yields the axios message, and any non-axios value yields the fixed
"An unexpected error occurred". -/
theorem handle_api_error_total :
    (∀ message, handleApiError (ApiErrorInput.axiosErr none message) = message) ∧
    (∀ message, handleApiError
       (ApiErrorInput.axiosErr (some { detail := none }) message) = message) ∧
    (∀ s message, handleApiError
        (ApiErrorInput.axiosErr (some { detail := some (ApiDetail.strDetail s) })
          message) = if s = "" then message else s) ∧
    (∀ items message, handleApiError
        (ApiErrorInput.axiosErr (some { detail := some (ApiDetail.listDetail items) })
          message) = String.intercalate ", " (items.map formatValidationItem)) ∧
    handleApiError ApiErrorInput.nonAxios = "An unexpected error occurred" :=
  ⟨fun _ => rfl, fun _ => rfl, fun _ _ => rfl, fun _ _ => rfl, rfl⟩

/-- C10: whenever the history fetch issues a request, its params carry
`user_id` equal to the logged-in user's id plus the optional status filter;
while auth is loading, or when unauthenticated or without a user object, no
request is issued and the displayed list is empty. -/
theorem history_scoped_to_user (auth : AuthState)
    (filterStatus : Option AllocationStatus)
    (backend : HistoryParams → List Allocation) :
    (∀ p, fetchAllocationsRequest auth filterStatus = some p →
       ∃ u, auth.user = some u ∧ p.user_id = some u.id ∧ p.status = filterStatus) ∧
    (auth.isAuthLoading = true ∨ auth.isAuthenticated = false ∨ auth.user = none →
       fetchAllocationsRequest auth filterStatus = none ∧
       fetchAllocationsResult auth filterStatus backend = []) := by
  constructor
  · intro p hp
    unfold fetchAllocationsRequest at hp
    by_cases hcond :
        (auth.isAuthLoading || !auth.isAuthenticated || auth.user.isNone) = true
    · rw [if_pos hcond] at hp
      cases hp
    · rw [if_neg hcond] at hp
      cases hu : auth.user with
      | none => rw [hu] at hp; cases hp
      | some u =>
        rw [hu] at hp
        cases hp
        exact ⟨u, rfl, rfl, rfl⟩
  · intro h
    have hcond :
        (auth.isAuthLoading || !auth.isAuthenticated || auth.user.isNone) = true := by
      rcases h with h | h | h <;> simp [h]
    have hreq : fetchAllocationsRequest auth filterStatus = none := by
      unfold fetchAllocationsRequest
      rw [if_pos hcond]
    refine ⟨hreq, ?_⟩
    unfold fetchAllocationsResult
    rw [hreq]

/-- C10 witness: a concrete authenticated fetch carries the user's id; a
concrete logged-out state issues no request and shows nothing. -/
theorem history_scoped_to_user_witness :
    (∃ u, ({ isAuthLoading := false, isAuthenticated := true,
             user := some sampleUser } : AuthState).user = some u ∧
       ({ user_id := some sampleUser.id, status := none } : HistoryParams).user_id
         = some u.id ∧
       ({ user_id := some sampleUser.id, status := none } : HistoryParams).status
         = (none : Option AllocationStatus)) ∧
    (fetchAllocationsRequest
       { isAuthLoading := false, isAuthenticated := false, user := none } none
       = none ∧
     fetchAllocationsResult
       { isAuthLoading := false, isAuthenticated := false, user := none } none
       (fun _ => []) = []) := by
  refine ⟨?_, ?_⟩
  · exact (history_scoped_to_user
      { isAuthLoading := false, isAuthenticated := true, user := some sampleUser }
      none (fun _ => [])).1 { user_id := some sampleUser.id, status := none } rfl
  · exact (history_scoped_to_user
      { isAuthLoading := false, isAuthenticated := false, user := none }
      none (fun _ => [])).2 (Or.inr (Or.inl rfl))

end WorkspaceAlloc
